import Mathlib

/-!
Verification of the QR-symbol encoder (package qr).

The Go source is shallowly embedded: the module grid and the function grid
are total functions from integer coordinates to booleans (reads and writes
in the source are always guarded by bounds checks, which the embedding
keeps), byte values are natural numbers, and the fallible constructor
returns an Except value.  Loops become folds over the exact index ranges
the source iterates, and the two while-loops of the byte-mode encoder
become fuel-bounded recursions whose fuel provably dominates the number of
iterations the source performs.
-/

set_option maxRecDepth 10000

/-- Error correction levels, in the source declaration order (Go iota:
Low = 0, Medium = 1, Quartile = 2, High = 3); a larger index means stronger
recovery. -/
inductive ErrorLevel where
  | Low
  | Medium
  | Quartile
  | High
deriving DecidableEq

/-- The integer value of an error level (the Go iota value), used to index
the capacity and format-information tables. -/
def ErrorLevel.toNat : ErrorLevel → Nat
  | .Low => 0
  | .Medium => 1
  | .Quartile => 2
  | .High => 3

instance (p : ErrorLevel → Prop) [DecidablePred p] : Decidable (∀ el, p el) :=
  decidable_of_iff (p .Low ∧ p .Medium ∧ p .Quartile ∧ p .High)
    ⟨fun h el => by
        cases el
        case Low => exact h.1
        case Medium => exact h.2.1
        case Quartile => exact h.2.2.1
        case High => exact h.2.2.2,
     fun h => ⟨h _, h _, h _, h _⟩⟩

/-- Version capacity data from the source: versionCapacity[version-1][errorLevel]
is the capacity in bytes (columns are L, M, Q, H). -/
def versionCapacity : List (List Nat) :=
  [[17, 14, 11, 7],
   [32, 26, 20, 14],
   [53, 42, 32, 24],
   [78, 62, 46, 34],
   [106, 84, 60, 44],
   [134, 106, 74, 58],
   [154, 122, 86, 64],
   [192, 152, 108, 84],
   [230, 180, 130, 98],
   [271, 213, 151, 119]]

/-- The table lookup versionCapacity[v-1][int(el)] of the source. -/
def capacityAt (v : Nat) (el : ErrorLevel) : Nat :=
  (versionCapacity.getD (v - 1) []).getD el.toNat 0

/-- Format information constants from the source: formatInfos[errorLevel][mask]. -/
def formatInfos : List (List Nat) :=
  [[0x5412, 0x5125, 0x5E7C, 0x5B4B, 0x45F9, 0x40CE, 0x4F97, 0x4AA0],
   [0x5125, 0x5412, 0x4B6B, 0x4E5C, 0x50EE, 0x55D9, 0x5A80, 0x5FB7],
   [0x17F4, 0x1261, 0x1D38, 0x180F, 0x06BD, 0x038A, 0x0CD3, 0x09E4],
   [0x1689, 0x13BE, 0x1CE7, 0x19D0, 0x0762, 0x0255, 0x0D0C, 0x083B]]

/-- A module grid: Grid y x is the cell in row y, column x.  The source
stores grids as size-by-size boolean matrices indexed Modules[y][x]; the
embedding uses a total function since every source access is bounds
checked. -/
abbrev Grid := Int → Int → Bool

/-- Write one cell of a grid (the assignment g[y][x] = v). -/
def updateGrid (g : Grid) (y x : Int) (v : Bool) : Grid :=
  fun y1 x1 => if y1 = y ∧ x1 = x then v else g y1 x1

/-- The QRCode struct of the source. -/
@[ext]
structure QRCode where
  Version : Int
  Size : Int
  ErrorLevel : ErrorLevel
  Mask : Int
  Modules : Grid
  IsFunction : Grid
  Data : List Nat

/-- The bounds check x >= 0 && x < qr.Size && y >= 0 && y < qr.Size. -/
def QRCode.inBounds (qr : QRCode) (x y : Int) : Bool :=
  decide (0 ≤ x ∧ x < qr.Size ∧ 0 ≤ y ∧ y < qr.Size)

/-- setModule: guarded write to the Modules grid. -/
def QRCode.setModule (qr : QRCode) (x y : Int) (value : Bool) : QRCode :=
  if qr.inBounds x y then { qr with Modules := updateGrid qr.Modules y x value } else qr

/-- setFunction: guarded write to the IsFunction grid. -/
def QRCode.setFunction (qr : QRCode) (x y : Int) (value : Bool) : QRCode :=
  if qr.inBounds x y then { qr with IsFunction := updateGrid qr.IsFunction y x value } else qr

/-- The index list of a Go loop  for i := 0; i < n; i++  (n may be an
arbitrary integer; a nonpositive bound yields no iterations). -/
def irange (n : Int) : List Int :=
  (List.range n.toNat).map (Nat.cast : Nat → Int)

/-- isValidURL from the source: the function returns true for every
nonempty string because of an unconditional early return; the regular
expression test after it is dead code. -/
def isValidURL (url : List Nat) : Bool :=
  if url.length = 0 then false else true

/-- determineVersionAndErrorLevel: try versions 1..10 in ascending order
and, within each version, error levels in the order High, Quartile,
Medium, Low, returning the first pair whose capacity is at least
dataLen + 3; the sentinel (-1, Low) signals failure. -/
def determineVersionAndErrorLevel (dataLen : Nat) : Int × ErrorLevel :=
  let requiredCapacity := dataLen + 3
  match (List.range' 1 versionCapacity.length).findSome? (fun v =>
      ([ErrorLevel.High, ErrorLevel.Quartile, ErrorLevel.Medium, ErrorLevel.Low].find?
        (fun el => decide (requiredCapacity ≤ capacityAt v el))).map (fun el => (v, el))) with
  | some (v, el) => ((v : Int), el)
  | none => (-1, ErrorLevel.Low)

/-- The error cases of NewQRCode (the two fmt.Errorf sites). -/
inductive QRError where
  | invalidURLFormat
  | urlTooLong
deriving DecidableEq

/-- NewQRCode: validate the payload, choose version and error level, and
build the symbol with both grids allocated all-false (initializeGrids). -/
def NewQRCode (url : List Nat) : Except QRError QRCode :=
  if !isValidURL url then .error .invalidURLFormat
  else
    let data := url
    let ve := determineVersionAndErrorLevel data.length
    if ve.1 = -1 then .error .urlTooLong
    else
      .ok { Version := ve.1
            Size := 21 + (ve.1 - 1) * 4
            ErrorLevel := ve.2
            Mask := 0
            Modules := fun _ _ => false
            IsFunction := fun _ _ => false
            Data := data }

/-- intToBits: bits[length-1-i] holds bit i of value, so index j of the
result holds bit (length-1-j); most significant bit first. -/
def intToBits (value length : Nat) : List Bool :=
  (List.range length).map (fun j => (value >>> (length - 1 - j)) &&& 1 != 0)

/-- shouldMask: the eight mask predicates (the Go switch; any other mask
index answers false).  All call sites use nonnegative coordinates, where
Lean's integer division and modulo agree with Go's. -/
def shouldMask (x y mask : Int) : Bool :=
  if mask = 0 then (x + y) % 2 == 0
  else if mask = 1 then y % 2 == 0
  else if mask = 2 then x % 3 == 0
  else if mask = 3 then (x + y) % 3 == 0
  else if mask = 4 then (y / 2 + x / 3) % 2 == 0
  else if mask = 5 then (x * y) % 2 + (x * y) % 3 == 0
  else if mask = 6 then ((x * y) % 2 + (x * y) % 3) % 2 == 0
  else if mask = 7 then ((x + y) % 2 + (x * y) % 3) % 2 == 0
  else false

/-- The body of the applyMask loops: toggle cell (y, x) when it is not a
function cell and its mask predicate holds. -/
def maskStep (isF : Grid) (mask y : Int) (g : Grid) (x : Int) : Grid :=
  if !isF y x && shouldMask x y mask then updateGrid g y x (!g y x) else g

/-- The inner applyMask loop over the columns of row y. -/
def maskRow (isF : Grid) (mask size : Int) (g : Grid) (y : Int) : Grid :=
  (irange size).foldl (maskStep isF mask y) g

/-- applyMask: toggle every in-range non-function cell whose mask
predicate holds, iterating rows then columns as the source does. -/
def QRCode.applyMask (qr : QRCode) (mask : Int) : QRCode :=
  { qr with Modules :=
      (irange qr.Size).foldl (maskRow qr.IsFunction mask qr.Size) qr.Modules }

/-- One step of the penalty row scan: compare the cell at column x with its
left neighbour; extend the current run, or flush a run of length at least 5
into the penalty and restart the counter. -/
def penaltyScanStep (qr : QRCode) (y : Int) (s : Nat × Nat) (x : Nat) : Nat × Nat :=
  if qr.Modules y (x : Int) == qr.Modules y ((x : Int) - 1)
  then (s.1, s.2 + 1)
  else if 5 ≤ s.2 then (s.1 + 3 + (s.2 - 5), 1) else (s.1, 1)

/-- One row of calculatePenalty: scan columns 1 to size - 1 starting with run
count 1, then flush the final run. -/
def penaltyRow (qr : QRCode) (penalty : Nat) (y : Int) : Nat :=
  let s := (List.range' 1 (qr.Size - 1).toNat).foldl (penaltyScanStep qr y) (penalty, 1)
  if 5 ≤ s.2 then s.1 + 3 + (s.2 - 5) else s.1

/-- calculatePenalty: the row-run rule only.  Each row is scanned left to
right with a run counter; a finished run of length at least 5 adds
3 + (length - 5), and the last run of the row is flushed after the scan. -/
def QRCode.calculatePenalty (qr : QRCode) : Nat :=
  (irange qr.Size).foldl (penaltyRow qr) 0

/-! Reference definitions for the penalty score, written from the rule
itself: decompose each row into its maximal runs of identical cells and sum
the contributions 3 + (length - 5) of the runs of length at least 5. -/

/-- The lengths of the maximal runs of a list, given the value of the
previous cell and the length of the run in progress. -/
def runLengthsAux (prev : Bool) (count : Nat) : List Bool → List Nat
  | [] => [count]
  | b :: l => if b == prev then runLengthsAux b (count + 1) l
              else count :: runLengthsAux b 1 l

/-- The lengths of the maximal runs of identical values of a list. -/
def runLengths : List Bool → List Nat
  | [] => []
  | a :: l => runLengthsAux a 1 l

/-- The penalty contribution of one maximal run. -/
def runContribution (n : Nat) : Nat := if 5 ≤ n then 3 + (n - 5) else 0

/-- Row y of the module grid, as the list of its size cells. -/
def rowCells (qr : QRCode) (y : Int) : List Bool :=
  (irange qr.Size).map (qr.Modules y)

/-- The reference score of one row: total contribution of its maximal runs. -/
def rowRunScore (l : List Bool) : Nat :=
  ((runLengths l).map runContribution).sum

/-- The reference penalty: row-run scores summed over all rows, with no
column, block or dark-ratio terms. -/
def referencePenalty (qr : QRCode) : Nat :=
  ((irange qr.Size).map (fun y => rowRunScore (rowCells qr y))).sum

/-- The row scan of calculatePenalty rephrased on the list of cells of the
row, used to connect the index-based loop with the reference score. -/
def scanList (prev : Bool) (s : Nat × Nat) : List Bool → Nat × Nat
  | [] => s
  | b :: l => scanList b (if b == prev then (s.1, s.2 + 1)
      else if 5 ≤ s.2 then (s.1 + 3 + (s.2 - 5), 1) else (s.1, 1)) l

/-- findBestMask: apply each of the eight masks, score it, apply it again
to undo it, and keep the index of the first strictly smallest penalty; the
initial best penalty is math.MaxInt32.  The fold also carries the symbol
the source mutates, so the returned pair exposes both the chosen index and
the symbol state after the search. -/
def bestMaskStep (s : QRCode × Int × Nat) (mask : Int) : QRCode × Int × Nat :=
  let q1 := s.1.applyMask mask
  let penalty := q1.calculatePenalty
  let q2 := q1.applyMask mask
  if penalty < s.2.2 then (q2, mask, penalty) else (q2, s.2.1, s.2.2)

/-- findBestMask proper: fold the candidate loop over mask indices 0..7. -/
def QRCode.findBestMask (qr : QRCode) : Int × QRCode :=
  let s := (irange 8).foldl bestMaskStep (qr, 0, 2147483647)
  (s.2.1, s.1)

/-- The sequence of column values taken by the data-placement loop:
col starts at size - 1, is decremented past the timing column when it
reaches 6, and steps down by 2; the fuel dominates the iteration count,
since col strictly decreases by at least 2 each step. -/
def dataColSeqAux : Nat → Int → List Int
  | 0, _ => []
  | fuel + 1, col =>
    if 0 ≤ col then
      let col1 := if col = 6 then col - 1 else col
      col1 :: dataColSeqAux fuel (col1 - 2)
    else []

/-- All columns visited by addData for a symbol of the given size. -/
def dataColSeq (size : Int) : List Int :=
  dataColSeqAux (size.toNat + 1) (size - 1)

/-- The innermost body of addData, for one cell of a column pair: if the
cell is in bounds and not a function cell, write the next bit of the
stream (or false once the stream is exhausted) and advance the cursor.
The write is a plain grid update because the guard has already performed
the bounds check that setModule would repeat. -/
def dataCellStep (qr : QRCode) (data : List Nat) (totalBits : Nat) (col row : Int)
    (s : Grid × Nat) (c : Int) : Grid × Nat :=
  let x := col - c
  let y := row
  if qr.inBounds x y && !qr.IsFunction y x then
    if s.2 < totalBits then
      let byteIndex := s.2 / 8
      let bitPos := 7 - s.2 % 8
      let bit := data.getD byteIndex 0 &&& (1 <<< bitPos) != 0
      (updateGrid s.1 y x bit, s.2 + 1)
    else (updateGrid s.1 y x false, s.2)
  else s

/-- One row index of the addData traversal: resolve the zigzag direction
and visit the two cells of the column pair. -/
def dataRowStep (qr : QRCode) (data : List Nat) (totalBits : Nat) (col : Int)
    (upward : Bool) (s : Grid × Nat) (i : Int) : Grid × Nat :=
  let row := if upward then qr.Size - 1 - i else i
  (irange 2).foldl (dataCellStep qr data totalBits col row) s

/-- One column pair of the addData traversal. -/
def dataColStep (qr : QRCode) (data : List Nat) (totalBits : Nat)
    (s : Grid × Nat) (col : Int) : Grid × Nat :=
  let upward := ((qr.Size - 1 - col) / 2) % 2 == 0
  (irange qr.Size).foldl (dataRowStep qr data totalBits col upward) s

/-- addData: place the encoded bytes into non-function cells along the
zigzag traversal, consuming bits most significant first and writing false
once the stream is exhausted.  The in-place bit-cursor and grid of the
source become an explicit (grid, bitIndex) state. -/
def QRCode.addData (qr : QRCode) (data : List Nat) : QRCode :=
  let totalBits := data.length * 8
  { qr with Modules :=
      ((dataColSeq qr.Size).foldl (dataColStep qr data totalBits) (qr.Modules, 0)).1 }

/-- The 15-bit format constant of the symbol, formatInfos[errorLevel][mask],
read one bit at a time: formatBit qr i is bit i. -/
def formatBit (qr : QRCode) (i : Nat) : Bool :=
  (((formatInfos.getD qr.ErrorLevel.toNat []).getD qr.Mask.toNat 0) >>> i) &&& 1 != 0

/-- One iteration of the addFormatInfo loop, with the source's branch
structure on the bit index i.  (The source reads the format constant once
before the loop; recomputing the pure lookup each iteration is
equivalent.) -/
def formatInfoStep (qr q : QRCode) (i : Nat) : QRCode :=
  let formatInfo := (formatInfos.getD qr.ErrorLevel.toNat []).getD qr.Mask.toNat 0
  let bit := (formatInfo >>> i) &&& 1 != 0
  if i < 6 then
    (((q.setModule 8 (i : Int) bit).setModule (i : Int) 8 bit).setFunction 8
      (i : Int) true).setFunction (i : Int) 8 true
  else if i = 6 then
    (((q.setModule 8 7 bit).setModule 7 8 bit).setFunction 8 7 true).setFunction 7 8 true
  else if i = 7 then
    (q.setModule 8 8 bit).setFunction 8 8 true
  else if i = 8 then
    (q.setModule 7 8 bit).setFunction 7 8 true
  else
    (((q.setModule (14 - (i : Int)) 8 bit).setModule 8
        (qr.Size - 15 + (i : Int)) bit).setFunction (14 - (i : Int)) 8
      true).setFunction 8 (qr.Size - 15 + (i : Int)) true

/-- addFormatInfo: write the 15 bits of formatInfos[errorLevel][mask]
around the top-left finder pattern with the source's branch structure,
mirror bits 9 to 14, and finally set the dark module at (8, size - 8). -/
def QRCode.addFormatInfo (qr : QRCode) : QRCode :=
  let qr1 := (List.range 15).foldl (formatInfoStep qr) qr
  (qr1.setModule 8 (qr.Size - 8) true).setFunction 8 (qr.Size - 8) true

/-- The alternating padding bytes of the byte-mode encoder. -/
def padBytes : List Nat := [0xEC, 0x11]

/-- The while-loop that pads the bitstream to a byte boundary; at most 7
appends are ever needed, so fuel 8 reproduces the loop exactly. -/
def padToByteAux : Nat → List Bool → List Bool
  | 0, bits => bits
  | fuel + 1, bits =>
    if bits.length % 8 = 0 then bits else padToByteAux fuel (bits ++ [false])

/-- The while-loop that appends whole padding bytes until the bitstream
reaches maxBits; each iteration adds 8 bits, so fuel maxBits dominates the
iteration count. -/
def addPadAux (maxBits : Nat) : Nat → Nat → List Bool → List Bool
  | 0, _, bits => bits
  | fuel + 1, padIndex, bits =>
    if bits.length < maxBits then
      addPadAux maxBits fuel (padIndex + 1) (bits ++ intToBits (padBytes.getD (padIndex % 2) 0) 8)
    else bits

/-- getDataCapacity: capacity lookup with the source's range guard. -/
def QRCode.getDataCapacity (qr : QRCode) : Nat :=
  if 10 < qr.Version ∨ qr.Version < 1 then 0
  else (versionCapacity.getD (qr.Version - 1).toNat []).getD qr.ErrorLevel.toNat 0

/-- The bitstream built by encodeData before the bytes conversion: mode
indicator, length byte, payload bits, terminator, byte-boundary padding,
and padding bytes. -/
def QRCode.encodeBits (qr : QRCode) : List Bool :=
  let data := qr.Data
  let modeBits : List Bool := [false, true, false, false]
  let bits1 := modeBits ++ intToBits data.length 8
  let bits2 := bits1 ++ data.flatMap (fun b => intToBits b 8)
  let maxBits := qr.getDataCapacity * 8
  let terminatorLength : Int := min 4 ((maxBits : Int) - bits2.length)
  let bits3 := bits2 ++ List.replicate terminatorLength.toNat false
  let bits4 := padToByteAux 8 bits3
  addPadAux maxBits maxBits 0 bits4

/-- The bits-to-bytes conversion at the end of encodeData: byte i collects
bits 8i..8i+7, most significant first, through the source's shift-and-or
loop. -/
def bytesFromBits (bits : List Bool) : List Nat :=
  (List.range (bits.length / 8)).map (fun i =>
    (List.range 8).foldl (fun acc j =>
      if bits.getD (i * 8 + j) false then acc ||| (1 <<< (7 - j)) else acc) 0)

/-- encodeData: the byte sequence returned to the data placer (the Go
error result is the constant nil). -/
def QRCode.encodeData (qr : QRCode) : List Nat :=
  bytesFromBits qr.encodeBits

/-! Reference definitions for the byte-mode encoder, written from the
claim: mode indicator 0100, an 8-bit length field, the payload bytes most
significant bit first, up to 4 terminator zero bits clipped to the
remaining capacity, zero padding to a byte boundary, then the two-byte
pattern 0xEC, 0x11 cycled until exactly capacity * 8 bits. -/

/-- k whole padding bytes cycling through 0xEC, 0x11, starting at parity
idx. -/
def padCycle (idx : Nat) : Nat → List Bool
  | 0 => []
  | k + 1 => intToBits (padBytes.getD (idx % 2) 0) 8 ++ padCycle (idx + 1) k

/-- The bitstream the claim describes, for a payload and a byte capacity
(natural subtraction clips the terminator at zero). -/
def encodeDataSpecBits (cap : Nat) (data : List Nat) : List Bool :=
  let header := [false, true, false, false] ++ intToBits data.length 8 ++
    data.flatMap (fun b => intToBits b 8)
  let t := min 4 (cap * 8 - header.length)
  let withTerm := header ++ List.replicate t false
  let padded := withTerm ++ List.replicate ((8 - withTerm.length % 8) % 8) false
  padded ++ padCycle 0 ((cap * 8 - padded.length) / 8)

/-- The payload of the spec's Scenario A, as its byte values. -/
def payloadA : List Nat := "http://localhost:8080".data.map Char.toNat

/-- The toggling condition of applyMask at cell (y, x). -/
abbrev maskCond (isF : Grid) (mask y x : Int) : Prop :=
  (!isF y x && shouldMask x y mask) = true

/-- A small concrete symbol with one function cell, used by witnesses. -/
def qrW1 : QRCode :=
  { Version := 1
    Size := 21
    ErrorLevel := .Low
    Mask := 0
    Modules := fun _ _ => false
    IsFunction := fun y x => decide (y = 0 ∧ x = 0)
    Data := [72, 105] }

/-- The state of the findBestMask loop after trying the first m masks. -/
def bestLoopState (qr : QRCode) (m : Nat) : QRCode × Int × Nat :=
  ((List.range m).map (Nat.cast : Nat → Int)).foldl bestMaskStep (qr, 0, 2147483647)

/-- The penalty the candidate loop computes for mask index k. -/
def penAt (qr : QRCode) (k : Int) : Nat := (qr.applyMask k).calculatePenalty

/-- A concrete accepted symbol used by the C5 witness. -/
def qrW2 : QRCode :=
  { Version := 1
    Size := 21
    ErrorLevel := .Low
    Mask := 0
    Modules := fun _ _ => false
    IsFunction := fun _ _ => false
    Data := [104, 105] }

/-- The symbol NewQRCode builds for a payload accepted at version 10, level
Low. -/
def qr10 (url : List Nat) : QRCode :=
  { Version := 10
    Size := 57
    ErrorLevel := .Low
    Mask := 0
    Modules := fun _ _ => false
    IsFunction := fun _ _ => false
    Data := url }


/-! ## Helper lemmas -/

theorem foldl_inv {σ α : Type _} {P : σ → Prop} (f : σ → α → σ) (l : List α)
    (s : σ) (hs : P s) (h : ∀ t a, P t → P (f t a)) : P (l.foldl f s) := by
  induction l generalizing s with
  | nil => exact hs
  | cons a l ih => exact ih (f s a) (h s a hs)

theorem updateGrid_self (g : Grid) (y x : Int) (v : Bool) :
    updateGrid g y x v y x = v := by
  simp [updateGrid]

theorem updateGrid_apply (g : Grid) (y x : Int) (v : Bool) (y1 x1 : Int) :
    updateGrid g y x v y1 x1 = if y1 = y ∧ x1 = x then v else g y1 x1 := rfl

theorem mem_irange {n a : Int} : a ∈ irange n ↔ 0 ≤ a ∧ a < n := by
  unfold irange
  rw [List.mem_map]
  constructor
  · rintro ⟨i, hi, rfl⟩
    rw [List.mem_range] at hi
    omega
  · rintro ⟨h0, hn⟩
    refine ⟨a.toNat, ?_, by omega⟩
    rw [List.mem_range]
    omega

theorem nodup_irange (n : Int) : (irange n).Nodup := by
  unfold irange
  exact List.Nodup.map (fun a b h => by omega) (List.nodup_range n.toNat)

theorem length_irange (n : Int) : (irange n).length = n.toNat := by
  rw [irange, List.length_map, List.length_range]

theorem maskStep_apply (isF : Grid) (mask y : Int) (g : Grid) (x y1 x1 : Int) :
    maskStep isF mask y g x y1 x1 =
      if y1 = y ∧ x1 = x ∧ maskCond isF mask y x
      then !(g y1 x1) else g y1 x1 := by
  unfold maskStep
  by_cases hc : maskCond isF mask y x
  · rw [if_pos hc, updateGrid_apply]
    by_cases hyx : y1 = y ∧ x1 = x
    · rw [if_pos hyx, if_pos ⟨hyx.1, hyx.2, hc⟩, hyx.1, hyx.2]
    · rw [if_neg hyx, if_neg (fun h => hyx ⟨h.1, h.2.1⟩)]
  · rw [if_neg hc, if_neg (fun h => hc h.2.2)]

theorem maskRow_fold_apply (isF : Grid) (mask y : Int) (xs : List Int)
    (hnd : xs.Nodup) (g : Grid) (y1 x1 : Int) :
    (xs.foldl (maskStep isF mask y) g) y1 x1 =
      if y1 = y ∧ x1 ∈ xs ∧ maskCond isF mask y x1
      then !(g y1 x1) else g y1 x1 := by
  induction xs generalizing g with
  | nil => simp
  | cons a l ih =>
    obtain ⟨ha, hl⟩ := List.nodup_cons.mp hnd
    rw [List.foldl_cons, ih hl]
    by_cases hy : y1 = y
    · subst hy
      by_cases hxl : x1 ∈ l
      · have hne : x1 ≠ a := fun he => ha (he ▸ hxl)
        have hstep : maskStep isF mask y1 g a y1 x1 = g y1 x1 := by
          rw [maskStep_apply, if_neg (fun h => hne h.2.1)]
        rw [hstep]
        simp [hxl, List.mem_cons]
      · rw [maskStep_apply]
        by_cases hxa : x1 = a
        · subst hxa
          simp [hxl, List.mem_cons]
        · simp [hxl, hxa, List.mem_cons]
    · rw [maskStep_apply]
      simp [hy]

theorem maskRow_apply (isF : Grid) (mask size : Int) (g : Grid) (y y1 x1 : Int) :
    maskRow isF mask size g y y1 x1 =
      if y1 = y ∧ (0 ≤ x1 ∧ x1 < size) ∧ maskCond isF mask y x1
      then !(g y1 x1) else g y1 x1 := by
  unfold maskRow
  rw [maskRow_fold_apply isF mask y _ (nodup_irange size)]
  simp only [mem_irange]

theorem maskGrid_fold_apply (isF : Grid) (mask size : Int) (ys : List Int)
    (hnd : ys.Nodup) (g : Grid) (y1 x1 : Int) :
    (ys.foldl (maskRow isF mask size) g) y1 x1 =
      if y1 ∈ ys ∧ (0 ≤ x1 ∧ x1 < size) ∧ maskCond isF mask y1 x1
      then !(g y1 x1) else g y1 x1 := by
  induction ys generalizing g with
  | nil => simp
  | cons a l ih =>
    obtain ⟨ha, hl⟩ := List.nodup_cons.mp hnd
    rw [List.foldl_cons, ih hl]
    by_cases hyl : y1 ∈ l
    · have hne : y1 ≠ a := fun he => ha (he ▸ hyl)
      have hstep : maskRow isF mask size g a y1 x1 = g y1 x1 := by
        rw [maskRow_apply, if_neg (fun h => hne h.1)]
      rw [hstep]
      simp [hyl, List.mem_cons]
    · by_cases hya : y1 = a
      · subst hya
        rw [if_neg (fun h => hyl h.1), maskRow_apply]
        simp [hyl, List.mem_cons]
      · rw [if_neg (fun h => hyl h.1), maskRow_apply, if_neg (fun h => hya h.1)]
        have hcons : ¬ (y1 ∈ a :: l ∧ (0 ≤ x1 ∧ x1 < size) ∧ maskCond isF mask y1 x1) := by
          rw [List.mem_cons]
          rintro ⟨hy1 | hy1, _⟩
          · exact hya hy1
          · exact hyl hy1
        rw [if_neg hcons]

theorem applyMask_IsFunction (qr : QRCode) (mask : Int) :
    (qr.applyMask mask).IsFunction = qr.IsFunction := rfl

theorem applyMask_Size (qr : QRCode) (mask : Int) :
    (qr.applyMask mask).Size = qr.Size := rfl

/-- Pointwise description of applyMask: exactly the in-range, non-function
cells whose mask predicate holds are toggled. -/
theorem applyMask_Modules (qr : QRCode) (mask y x : Int) :
    (qr.applyMask mask).Modules y x =
      if (0 ≤ y ∧ y < qr.Size) ∧ (0 ≤ x ∧ x < qr.Size) ∧ maskCond qr.IsFunction mask y x
      then !(qr.Modules y x) else qr.Modules y x := by
  show (irange qr.Size).foldl (maskRow qr.IsFunction mask qr.Size) qr.Modules y x = _
  rw [maskGrid_fold_apply _ _ _ _ (nodup_irange _)]
  simp only [mem_irange]

theorem applyMask_applyMask (qr : QRCode) (mask : Int) :
    (qr.applyMask mask).applyMask mask = qr := by
  have hmod : ∀ y x, ((qr.applyMask mask).applyMask mask).Modules y x = qr.Modules y x := by
    intro y x
    rw [applyMask_Modules, applyMask_Modules, applyMask_IsFunction, applyMask_Size]
    by_cases hc : (0 ≤ y ∧ y < qr.Size) ∧ (0 ≤ x ∧ x < qr.Size) ∧
        maskCond qr.IsFunction mask y x
    · rw [if_pos hc, if_pos hc, Bool.not_not]
    · rw [if_neg hc, if_neg hc]
  ext y x
  case Version => rfl
  case Size => rfl
  case ErrorLevel => rfl
  case Mask => rfl
  case Modules => exact hmod y x
  case IsFunction => rfl
  case Data => rfl

theorem bestMaskStep_fst (s : QRCode × Int × Nat) (mask : Int) :
    (bestMaskStep s mask).1 = (s.1.applyMask mask).applyMask mask := by
  unfold bestMaskStep
  dsimp only
  split
  · rfl
  · rfl

theorem findBestMask_state (qr : QRCode) : qr.findBestMask.2 = qr := by
  unfold QRCode.findBestMask
  dsimp only
  refine foldl_inv (P := fun s : QRCode × Int × Nat => s.1 = qr) _ _ _ rfl ?_
  intro t a ht
  rw [bestMaskStep_fst, applyMask_applyMask, ht]

theorem dataCellStep_keep (qr : QRCode) (data : List Nat) (totalBits : Nat)
    (col row y x : Int) (hf : qr.IsFunction y x = true) (s : Grid × Nat) (c : Int)
    (hs : s.1 y x = qr.Modules y x) :
    (dataCellStep qr data totalBits col row s c).1 y x = qr.Modules y x := by
  unfold dataCellStep
  dsimp only
  split
  case isTrue hg =>
    have hnf : qr.IsFunction row (col - c) = false := by
      simp only [Bool.and_eq_true] at hg
      simpa using hg.2
    have hne : ¬(y = row ∧ x = col - c) := by
      rintro ⟨rfl, rfl⟩
      rw [hf] at hnf
      cases hnf
    split
    · dsimp only
      rw [updateGrid_apply, if_neg hne]
      exact hs
    · dsimp only
      rw [updateGrid_apply, if_neg hne]
      exact hs
  case isFalse => exact hs

theorem dataRowStep_keep (qr : QRCode) (data : List Nat) (totalBits : Nat)
    (col : Int) (upward : Bool) (y x : Int) (hf : qr.IsFunction y x = true)
    (s : Grid × Nat) (i : Int) (hs : s.1 y x = qr.Modules y x) :
    (dataRowStep qr data totalBits col upward s i).1 y x = qr.Modules y x := by
  unfold dataRowStep
  exact foldl_inv (P := fun t : Grid × Nat => t.1 y x = qr.Modules y x) _ _ _ hs
    (fun t c ht => dataCellStep_keep qr data totalBits col _ y x hf t c ht)

theorem dataColStep_keep (qr : QRCode) (data : List Nat) (totalBits : Nat)
    (y x : Int) (hf : qr.IsFunction y x = true) (s : Grid × Nat) (col : Int)
    (hs : s.1 y x = qr.Modules y x) :
    (dataColStep qr data totalBits s col).1 y x = qr.Modules y x := by
  unfold dataColStep
  exact foldl_inv (P := fun t : Grid × Nat => t.1 y x = qr.Modules y x) _ _ _ hs
    (fun t i ht => dataRowStep_keep qr data totalBits col _ y x hf t i ht)

theorem addData_keeps_function_cells (qr : QRCode) (data : List Nat) (y x : Int)
    (hf : qr.IsFunction y x = true) :
    (qr.addData data).Modules y x = qr.Modules y x := by
  unfold QRCode.addData
  dsimp only
  exact foldl_inv (P := fun t : Grid × Nat => t.1 y x = qr.Modules y x) _ _ _ rfl
    (fun t col ht => dataColStep_keep qr data (data.length * 8) y x hf t col ht)

theorem applyMask_keeps_function_cells (qr : QRCode) (mask y x : Int)
    (hf : qr.IsFunction y x = true) :
    (qr.applyMask mask).Modules y x = qr.Modules y x := by
  rw [applyMask_Modules]
  have hc : ¬((0 ≤ y ∧ y < qr.Size) ∧ (0 ≤ x ∧ x < qr.Size) ∧
      maskCond qr.IsFunction mask y x) := by
    rintro ⟨-, -, hm⟩
    simp only [maskCond, hf, Bool.not_true, Bool.false_and] at hm
    cases hm
  rw [if_neg hc]

theorem capacityAt_le_271 : ∀ v < 11, ∀ el, capacityAt v el ≤ 271 := by decide

set_option maxHeartbeats 1000000 in
theorem sizer_ok_small : ∀ L < 269,
    1 ≤ (determineVersionAndErrorLevel L).1 ∧ (determineVersionAndErrorLevel L).1 ≤ 10 ∧
    L + 3 ≤ capacityAt (determineVersionAndErrorLevel L).1.toNat
      (determineVersionAndErrorLevel L).2 ∧
    (∀ v < (determineVersionAndErrorLevel L).1.toNat, 1 ≤ v → ∀ el, capacityAt v el < L + 3) ∧
    (∀ el, (determineVersionAndErrorLevel L).2.toNat < el.toNat →
      capacityAt (determineVersionAndErrorLevel L).1.toNat el < L + 3) := by decide

theorem sizer_fail_large (L : Nat) (h : 269 ≤ L) :
    determineVersionAndErrorLevel L = (-1, ErrorLevel.Low) := by
  have hnone : (List.range' 1 versionCapacity.length).findSome? (fun v =>
      ([ErrorLevel.High, ErrorLevel.Quartile, ErrorLevel.Medium, ErrorLevel.Low].find?
        (fun el => decide (L + 3 ≤ capacityAt v el))).map (fun el => (v, el))) = none := by
    rw [List.findSome?_eq_none_iff]
    intro v hv
    rw [Option.map_eq_none']
    rw [List.find?_eq_none]
    intro el _
    have hv11 : v < 11 := by
      have hm := List.mem_range'_1.mp hv
      simp [versionCapacity] at hm
      omega
    have hcap := capacityAt_le_271 v hv11 el
    simp only [decide_eq_true_eq]
    omega
  simp only [determineVersionAndErrorLevel]
  rw [hnone]

/-! ## The claims -/

/-- C1: for every payload byte length L, determineVersionAndErrorLevel returns a
version in [1, 10] whose capacity at the returned level is at least L + 3, such
that no smaller version fits the payload at any level and no stronger level of
the returned version fits it; it returns the failure sentinel (-1, Low) exactly
when L + 3 > 271. -/
theorem sizer_smallest_version_strongest_level (L : Nat) :
    (L + 3 ≤ 271 →
      1 ≤ (determineVersionAndErrorLevel L).1 ∧
      (determineVersionAndErrorLevel L).1 ≤ 10 ∧
      L + 3 ≤ capacityAt (determineVersionAndErrorLevel L).1.toNat
        (determineVersionAndErrorLevel L).2 ∧
      (∀ v < (determineVersionAndErrorLevel L).1.toNat, 1 ≤ v →
        ∀ el, capacityAt v el < L + 3) ∧
      (∀ el, (determineVersionAndErrorLevel L).2.toNat < el.toNat →
        capacityAt (determineVersionAndErrorLevel L).1.toNat el < L + 3)) ∧
    (271 < L + 3 → determineVersionAndErrorLevel L = (-1, ErrorLevel.Low)) := by
  constructor
  · intro hL
    exact sizer_ok_small L (by omega)
  · intro hL
    exact sizer_fail_large L (by omega)

/-- Witness for C1: both branches applied at concrete lengths 21 and 300. -/
theorem sizer_smallest_version_strongest_level_witness :
    (1 ≤ (determineVersionAndErrorLevel 21).1 ∧
      determineVersionAndErrorLevel 300 = (-1, ErrorLevel.Low)) :=
  ⟨((sizer_smallest_version_strongest_level 21).1 (by decide)).1,
   (sizer_smallest_version_strongest_level 300).2 (by decide)⟩

/-- C2: a cell whose function flag is set before addData runs keeps its module
value through addData, and keeps it through applyMask for every mask index. -/
theorem function_cells_untouched (qr : QRCode) (data : List Nat) (mask y x : Int)
    (hf : qr.IsFunction y x = true) (_hm0 : 0 ≤ mask) (_hm7 : mask ≤ 7) :
    (qr.addData data).Modules y x = qr.Modules y x ∧
    (qr.applyMask mask).Modules y x = qr.Modules y x :=
  ⟨addData_keeps_function_cells qr data y x hf,
   applyMask_keeps_function_cells qr mask y x hf⟩

/-- Witness for C2 at the concrete symbol qrW1, cell (0, 0), mask 3. -/
theorem function_cells_untouched_witness :
    (qrW1.addData [5]).Modules 0 0 = qrW1.Modules 0 0 ∧
    (qrW1.applyMask 3).Modules 0 0 = qrW1.Modules 0 0 :=
  function_cells_untouched qrW1 [5] 3 0 0 (by decide) (by decide) (by decide)

/-- C3: applying the same mask twice restores the module grid exactly, for every
mask index, and findBestMask hands back the symbol with its module grid equal to
the one it started from. -/
theorem applyMask_involution (qr : QRCode) (mask : Int) :
    ((qr.applyMask mask).applyMask mask).Modules = qr.Modules ∧
    qr.findBestMask.2.Modules = qr.Modules :=
  ⟨by rw [applyMask_applyMask], by rw [findBestMask_state]⟩

/-- C8 counterexample: the Scenario A payload has 21 bytes, not the 22 the spec
states, so its required capacity is 24 rather than 25. -/
theorem scenarioA_payload_not_22_bytes :
    payloadA.length = 21 ∧ payloadA.length ≠ 22 := by decide

/-- C8 (amended): for the actual 21-byte Scenario A payload (required capacity
24), every level of version 1 is rejected, High and Quartile of version 2 are
rejected, and the sizer selects version 2 with level Medium. -/
theorem scenarioA_selects_v2_medium :
    (∀ el, capacityAt 1 el < payloadA.length + 3) ∧
    capacityAt 2 ErrorLevel.High < payloadA.length + 3 ∧
    capacityAt 2 ErrorLevel.Quartile < payloadA.length + 3 ∧
    determineVersionAndErrorLevel payloadA.length = (2, ErrorLevel.Medium) := by
  decide

/-- C9: the factory rejects the empty payload with the invalid-URL error, before
any symbol (and hence any grid) is built. -/
theorem newQRCode_empty_payload :
    NewQRCode [] = Except.error QRError.invalidURLFormat := rfl

theorem penaltyScan_eq_scanList (qr : QRCode) (y : Int) :
    ∀ (n i : Nat) (s : Nat × Nat),
      (List.range' (i + 1) n).foldl (penaltyScanStep qr y) s =
      scanList (qr.Modules y (i : Int)) s
        ((List.range' (i + 1) n).map (fun x => qr.Modules y (Nat.cast x))) := by
  intro n
  induction n with
  | zero => intro i s; rfl
  | succ n ih =>
    intro i s
    rw [List.range'_succ, List.foldl_cons, List.map_cons]
    rw [ih (i + 1)]
    have hc : ((i + 1 : Nat) : Int) - 1 = (i : Int) := by push_cast; ring
    conv_lhs => rw [penaltyScanStep, hc]
    conv_rhs => rw [scanList]

theorem scanList_flush : ∀ (l : List Bool) (prev : Bool) (p c : Nat),
    (if 5 ≤ (scanList prev (p, c) l).2
     then (scanList prev (p, c) l).1 + 3 + ((scanList prev (p, c) l).2 - 5)
     else (scanList prev (p, c) l).1) =
    p + ((runLengthsAux prev c l).map runContribution).sum := by
  intro l
  induction l with
  | nil =>
    intro prev p c
    rw [scanList, runLengthsAux, List.map_cons, List.map_nil, List.sum_cons, List.sum_nil]
    by_cases h5 : 5 ≤ c
    · rw [if_pos h5, runContribution, if_pos h5]
      dsimp only
      omega
    · rw [if_neg h5, runContribution, if_neg h5]
      dsimp only
      omega
  | cons b l ih =>
    intro prev p c
    rw [scanList, runLengthsAux]
    by_cases hb : b == prev
    · rw [if_pos hb, if_pos hb, ih]
    · rw [if_neg hb, if_neg hb, List.map_cons, List.sum_cons]
      by_cases h5 : 5 ≤ c
      · rw [if_pos h5, ih, runContribution, if_pos h5]
        omega
      · rw [if_neg h5, ih, runContribution, if_neg h5]
        omega

theorem penaltyRow_eq (qr : QRCode) (p : Nat) (y : Int) :
    penaltyRow qr p y = p + rowRunScore (rowCells qr y) := by
  unfold penaltyRow
  rcases hn : qr.Size.toNat with _ | m
  · have h1 : (qr.Size - 1).toNat = 0 := by omega
    have h2 : rowCells qr y = [] := by
      unfold rowCells irange
      rw [hn, List.range_zero, List.map_nil, List.map_nil]
    rw [h1, h2]
    show (if 5 ≤ (1 : Nat) then p + 3 + (1 - 5) else p) = p + rowRunScore []
    rw [rowRunScore, runLengths, List.map_nil, List.sum_nil, if_neg (by omega)]
    omega
  · have h1 : (qr.Size - 1).toNat = m := by omega
    have hrow : rowCells qr y = qr.Modules y ((0 : Nat) : Int) ::
        (List.range' 1 m).map (fun x => qr.Modules y (Nat.cast x)) := by
      unfold rowCells irange
      rw [hn, List.range_eq_range', List.range'_succ, List.map_cons, List.map_cons,
        List.map_map]
      rfl
    rw [h1]
    have hfold := penaltyScan_eq_scanList qr y m 0 (p, 1)
    rw [show (0 + 1 : Nat) = 1 from rfl] at hfold
    rw [hfold, scanList_flush, hrow, rowRunScore, runLengths]

theorem penaltyFold_eq (qr : QRCode) : ∀ (ys : List Int) (p : Nat),
    ys.foldl (penaltyRow qr) p =
      p + (ys.map (fun y => rowRunScore (rowCells qr y))).sum := by
  intro ys
  induction ys with
  | nil =>
    intro p
    rw [List.foldl_nil, List.map_nil, List.sum_nil]
    omega
  | cons a l ih =>
    intro p
    rw [List.foldl_cons, ih, penaltyRow_eq, List.map_cons, List.sum_cons]
    omega

/-- C7: calculatePenalty computes exactly the reference row-run score: for
each row, each maximal run of identical cells of length at least 5
contributes 3 + (length - 5), summed over all rows, with no column, block
or dark-ratio contributions. -/
theorem calculatePenalty_eq_reference (qr : QRCode) :
    qr.calculatePenalty = referencePenalty qr := by
  unfold QRCode.calculatePenalty referencePenalty
  rw [penaltyFold_eq, Nat.zero_add]

theorem penaltyScan_sum_le (qr : QRCode) (y : Int) :
    ∀ (l : List Nat) (s : Nat × Nat),
      (l.foldl (penaltyScanStep qr y) s).1 + (l.foldl (penaltyScanStep qr y) s).2 ≤
        s.1 + s.2 + l.length := by
  intro l
  induction l with
  | nil => intro s; simp
  | cons a l ih =>
    intro s
    rw [List.foldl_cons]
    have hstep : (penaltyScanStep qr y s a).1 + (penaltyScanStep qr y s a).2 ≤
        s.1 + s.2 + 1 := by
      unfold penaltyScanStep
      split
      · dsimp only
        omega
      · split
        · dsimp only
          omega
        · dsimp only
          omega
    have := ih (penaltyScanStep qr y s a)
    rw [List.length_cons]
    omega

theorem penaltyRow_le (qr : QRCode) (p : Nat) (y : Int) :
    penaltyRow qr p y ≤ p + qr.Size.toNat := by
  unfold penaltyRow
  rcases hn : qr.Size.toNat with _ | m
  · have h1 : (qr.Size - 1).toNat = 0 := by omega
    rw [h1]
    show (if 5 ≤ (1 : Nat) then p + 3 + (1 - 5) else p) ≤ p + 0
    rw [if_neg (by omega)]
    omega
  · have h1 : (qr.Size - 1).toNat = m := by omega
    rw [h1]
    have hb := penaltyScan_sum_le qr y (List.range' 1 m) (p, 1)
    rw [List.length_range'] at hb
    dsimp only at hb
    dsimp only
    split
    · omega
    · omega

theorem calculatePenalty_le (qr : QRCode) :
    qr.calculatePenalty ≤ qr.Size.toNat * qr.Size.toNat := by
  unfold QRCode.calculatePenalty
  have hgen : ∀ (ys : List Int) (p : Nat),
      ys.foldl (penaltyRow qr) p ≤ p + ys.length * qr.Size.toNat := by
    intro ys
    induction ys with
    | nil => intro p; simp
    | cons a l ih =>
      intro p
      rw [List.foldl_cons, List.length_cons]
      have h1 := penaltyRow_le qr p a
      have h2 := ih (penaltyRow qr p a)
      have h3 : penaltyRow qr p a + l.length * qr.Size.toNat ≤
          p + qr.Size.toNat + l.length * qr.Size.toNat := by omega
      calc (l.foldl (penaltyRow qr) (penaltyRow qr p a)) ≤
            penaltyRow qr p a + l.length * qr.Size.toNat := h2
        _ ≤ p + qr.Size.toNat + l.length * qr.Size.toNat := h3
        _ = p + (l.length + 1) * qr.Size.toNat := by ring
  have := hgen (irange qr.Size) 0
  rw [length_irange] at this
  omega

theorem bestLoopState_succ (qr : QRCode) (m : Nat) :
    bestLoopState qr (m + 1) = bestMaskStep (bestLoopState qr m) (m : Int) := by
  unfold bestLoopState
  rw [List.range_succ, List.map_append, List.foldl_append, List.map_cons, List.map_nil,
    List.foldl_cons, List.foldl_nil]

theorem bestMaskStep_eq (qr : QRCode) (s : QRCode × Int × Nat) (k : Int) (h : s.1 = qr) :
    bestMaskStep s k =
      if penAt qr k < s.2.2 then (qr, k, penAt qr k) else (qr, s.2.1, s.2.2) := by
  unfold bestMaskStep penAt
  rw [h]
  dsimp only
  rw [applyMask_applyMask]

theorem bestLoop_invariant (qr : QRCode)
    (hpen0 : penAt qr 0 < 2147483647) : ∀ m : Nat,
    (bestLoopState qr (m + 1)).1 = qr ∧
    0 ≤ (bestLoopState qr (m + 1)).2.1 ∧
    (bestLoopState qr (m + 1)).2.1 < ((m : Int) + 1) ∧
    (bestLoopState qr (m + 1)).2.2 = penAt qr (bestLoopState qr (m + 1)).2.1 ∧
    (∀ k : Int, 0 ≤ k → k < (m : Int) + 1 → (bestLoopState qr (m + 1)).2.2 ≤ penAt qr k) ∧
    (∀ k : Int, 0 ≤ k → k < (bestLoopState qr (m + 1)).2.1 →
      (bestLoopState qr (m + 1)).2.2 < penAt qr k) := by
  intro m
  induction m with
  | zero =>
    have hzero : bestLoopState qr 0 = (qr, 0, 2147483647) := rfl
    have h1 : bestLoopState qr 1 = (qr, 0, penAt qr 0) := by
      rw [bestLoopState_succ, bestMaskStep_eq qr _ _ (by rw [hzero]), hzero]
      dsimp only
      rw [Nat.cast_zero, if_pos hpen0]
    rw [h1]
    dsimp only
    refine ⟨rfl, by omega, by omega, rfl, ?_, ?_⟩
    · intro k hk0 hk1
      have hk : k = 0 := by omega
      rw [hk]
    · intro k hk0 hk1
      omega
  | succ m ih =>
    obtain ⟨hq, hbm0, hbmlt, hbp, hmin, hstrict⟩ := ih
    have hstep := bestLoopState_succ qr (m + 1)
    rw [bestMaskStep_eq qr _ _ hq] at hstep
    have hcast : penAt qr (((m + 1 : Nat) : Int)) = penAt qr ((m : Int) + 1) := by
      push_cast
      rfl
    rw [hcast] at hstep
    by_cases hlt : penAt qr ((m : Int) + 1) < (bestLoopState qr (m + 1)).2.2
    · rw [if_pos hlt] at hstep
      rw [hstep]
      dsimp only
      refine ⟨rfl, by push_cast; omega, by push_cast; omega, rfl, ?_, ?_⟩
      · intro k hk0 hklt
        by_cases hkm : k < (m : Int) + 1
        · have := hmin k hk0 hkm
          omega
        · have hk : k = (m : Int) + 1 := by push_cast at hklt; omega
          rw [hk]
      · intro k hk0 hklt
        have hkm : k < (m : Int) + 1 := by push_cast at hklt; omega
        have := hmin k hk0 hkm
        omega
    · rw [if_neg hlt] at hstep
      rw [hstep]
      dsimp only
      refine ⟨rfl, hbm0, by push_cast; omega, hbp, ?_, hstrict⟩
      intro k hk0 hklt
      by_cases hkm : k < (m : Int) + 1
      · exact hmin k hk0 hkm
      · have hk : k = (m : Int) + 1 := by push_cast at hklt; omega
        rw [hk]
        omega

theorem findBestMask_eq (qr : QRCode) :
    qr.findBestMask = ((bestLoopState qr 8).2.1, (bestLoopState qr 8).1) := by
  have h : irange 8 = (List.range 8).map (Nat.cast : Nat → Int) := by
    unfold irange
    rw [show Int.toNat 8 = 8 from rfl]
  unfold QRCode.findBestMask bestLoopState
  dsimp only
  rw [h]

/-- C6: findBestMask returns a mask index in [0, 7] whose penalty, computed
on the grid with that mask applied, is minimal over all eight candidates,
and it returns the lowest index achieving that minimum.  The size bound
covers every symbol the package constructs (versions 1 to 10 give sizes 21
to 57), and keeps all penalties below the initial math.MaxInt32 best. -/
theorem findBestMask_minimizes (qr : QRCode) (hsize : qr.Size ≤ 57) :
    0 ≤ qr.findBestMask.1 ∧ qr.findBestMask.1 < 8 ∧
    (∀ k : Int, 0 ≤ k → k < 8 →
      (qr.applyMask qr.findBestMask.1).calculatePenalty ≤
        (qr.applyMask k).calculatePenalty) ∧
    (∀ k : Int, 0 ≤ k → k < qr.findBestMask.1 →
      (qr.applyMask qr.findBestMask.1).calculatePenalty <
        (qr.applyMask k).calculatePenalty) := by
  have hp0 : penAt qr 0 < 2147483647 := by
    have hb := calculatePenalty_le (qr.applyMask 0)
    rw [applyMask_Size] at hb
    have ht : qr.Size.toNat ≤ 57 := by omega
    have hm : qr.Size.toNat * qr.Size.toNat ≤ 57 * 57 := Nat.mul_le_mul ht ht
    unfold penAt
    omega
  obtain ⟨hq, h0, hlt8, hbp, hmin, hstrict⟩ := bestLoop_invariant qr hp0 7
  have hfb : qr.findBestMask.1 = (bestLoopState qr (7 + 1)).2.1 := by
    rw [findBestMask_eq]
  have hc : ((7 : Nat) : Int) + 1 = 8 := by norm_num
  refine ⟨?_, ?_, ?_, ?_⟩
  · rw [hfb]
    exact h0
  · rw [hfb]
    omega
  · intro k hk0 hk8
    show penAt qr qr.findBestMask.1 ≤ penAt qr k
    rw [hfb, ← hbp]
    exact hmin k hk0 (by omega)
  · intro k hk0 hkb
    show penAt qr qr.findBestMask.1 < penAt qr k
    rw [hfb, ← hbp]
    exact hstrict k hk0 (by rw [hfb] at hkb; exact hkb)

/-- Witness for C6 at a concrete all-false symbol of size 21. -/
theorem findBestMask_minimizes_witness :
    0 ≤ qrW1.findBestMask.1 ∧ qrW1.findBestMask.1 < 8 ∧
    (∀ k : Int, 0 ≤ k → k < 8 →
      (qrW1.applyMask qrW1.findBestMask.1).calculatePenalty ≤
        (qrW1.applyMask k).calculatePenalty) ∧
    (∀ k : Int, 0 ≤ k → k < qrW1.findBestMask.1 →
      (qrW1.applyMask qrW1.findBestMask.1).calculatePenalty <
        (qrW1.applyMask k).calculatePenalty) :=
  findBestMask_minimizes qrW1 (by decide)

theorem intToBits_length (v n : Nat) : (intToBits v n).length = n := by
  unfold intToBits
  rw [List.length_map, List.length_range]

theorem flatMap_intToBits_length (data : List Nat) :
    (data.flatMap (fun b => intToBits b 8)).length = 8 * data.length := by
  induction data with
  | nil => rfl
  | cons a l ih =>
    rw [List.flatMap_cons, List.length_append, ih, intToBits_length, List.length_cons]
    ring

theorem padCycle_length (idx k : Nat) : (padCycle idx k).length = 8 * k := by
  induction k generalizing idx with
  | zero => rfl
  | succ k ih =>
    rw [padCycle, List.length_append, intToBits_length, ih]
    ring

theorem padToByteAux_mod8 (f : Nat) (l : List Bool) (h : l.length % 8 = 0) :
    padToByteAux (f + 1) l = l := by
  unfold padToByteAux
  rw [if_pos h]

theorem addPadAux_eq (maxBits : Nat) (hmax : maxBits % 8 = 0) :
    ∀ (f idx : Nat) (l : List Bool), l.length % 8 = 0 → maxBits ≤ l.length + 8 * f →
      addPadAux maxBits f idx l = l ++ padCycle idx ((maxBits - l.length) / 8) := by
  intro f
  induction f with
  | zero =>
    intro idx l hl hle
    have hk : (maxBits - l.length) / 8 = 0 := by omega
    rw [hk, padCycle, List.append_nil]
    rfl
  | succ f ih =>
    intro idx l hl hle
    by_cases hc : l.length < maxBits
    · have hstep : addPadAux maxBits (f + 1) idx l =
          addPadAux maxBits f (idx + 1) (l ++ intToBits (padBytes.getD (idx % 2) 0) 8) := by
        simp only [addPadAux]
        rw [if_pos hc]
      have hlen : (l ++ intToBits (padBytes.getD (idx % 2) 0) 8).length = l.length + 8 := by
        rw [List.length_append, intToBits_length]
      rw [hstep, ih (idx + 1) _ (by rw [hlen]; omega) (by rw [hlen]; omega)]
      have hk : (maxBits - l.length) / 8 = (maxBits - (l.length + 8)) / 8 + 1 := by omega
      rw [hlen, hk, padCycle, List.append_assoc]
    · have hstep : addPadAux maxBits (f + 1) idx l = l := by
        simp only [addPadAux]
        rw [if_neg hc]
      have hk : (maxBits - l.length) / 8 = 0 := by omega
      rw [hstep, hk, padCycle, List.append_nil]

theorem bytesFromBits_length (bits : List Bool) :
    (bytesFromBits bits).length = bits.length / 8 := by
  unfold bytesFromBits
  rw [List.length_map, List.length_range]

theorem encodeBits_eq (qr : QRCode) (hcap : qr.Data.length + 3 ≤ qr.getDataCapacity) :
    qr.encodeBits =
      [false, true, false, false] ++ intToBits qr.Data.length 8 ++
      qr.Data.flatMap (fun b => intToBits b 8) ++ List.replicate 4 false ++
      padCycle 0 ((qr.getDataCapacity * 8 - (16 + 8 * qr.Data.length)) / 8) := by
  unfold QRCode.encodeBits
  dsimp only
  have hlen2 : ([false, true, false, false] ++ intToBits qr.Data.length 8 ++
      qr.Data.flatMap (fun b => intToBits b 8)).length = 12 + 8 * qr.Data.length := by
    rw [List.length_append, List.length_append, intToBits_length, flatMap_intToBits_length]
    show 4 + 8 + 8 * qr.Data.length = 12 + 8 * qr.Data.length
    omega
  rw [hlen2]
  have hterm : (min 4 ((↑(qr.getDataCapacity * 8) : Int) - ↑(12 + 8 * qr.Data.length))) = 4 :=
    min_eq_left (by push_cast; omega)
  rw [hterm, show ((4 : Int).toNat) = 4 from rfl]
  have hlen3 : ([false, true, false, false] ++ intToBits qr.Data.length 8 ++
      qr.Data.flatMap (fun b => intToBits b 8) ++ List.replicate 4 false).length =
      16 + 8 * qr.Data.length := by
    rw [List.length_append, hlen2, List.length_replicate]
    omega
  have hmod3 : ([false, true, false, false] ++ intToBits qr.Data.length 8 ++
      qr.Data.flatMap (fun b => intToBits b 8) ++ List.replicate 4 false).length % 8 = 0 := by
    rw [hlen3]
    omega
  have h8 : padToByteAux 8 ([false, true, false, false] ++ intToBits qr.Data.length 8 ++
      qr.Data.flatMap (fun b => intToBits b 8) ++ List.replicate 4 false) =
      [false, true, false, false] ++ intToBits qr.Data.length 8 ++
      qr.Data.flatMap (fun b => intToBits b 8) ++ List.replicate 4 false :=
    padToByteAux_mod8 7 _ hmod3
  rw [h8, addPadAux_eq (qr.getDataCapacity * 8) (by omega) (qr.getDataCapacity * 8) 0 _
    hmod3 (by rw [hlen3]; omega), hlen3]

theorem encodeDataSpecBits_eq (cap : Nat) (data : List Nat)
    (hcap : data.length + 3 ≤ cap) :
    encodeDataSpecBits cap data =
      [false, true, false, false] ++ intToBits data.length 8 ++
      data.flatMap (fun b => intToBits b 8) ++ List.replicate 4 false ++
      padCycle 0 ((cap * 8 - (16 + 8 * data.length)) / 8) := by
  unfold encodeDataSpecBits
  dsimp only
  have hhead : ([false, true, false, false] ++ intToBits data.length 8 ++
      data.flatMap (fun b => intToBits b 8)).length = 12 + 8 * data.length := by
    rw [List.length_append, List.length_append, intToBits_length, flatMap_intToBits_length]
    show 4 + 8 + 8 * data.length = 12 + 8 * data.length
    omega
  rw [hhead]
  have ht : min 4 (cap * 8 - (12 + 8 * data.length)) = 4 := min_eq_left (by omega)
  rw [ht]
  have hz : (8 - ([false, true, false, false] ++ intToBits data.length 8 ++
      data.flatMap (fun b => intToBits b 8) ++ List.replicate 4 false).length % 8) % 8
      = 0 := by
    rw [List.length_append, hhead, List.length_replicate]
    omega
  rw [hz, List.replicate_zero, List.append_nil]
  have hp : ([false, true, false, false] ++ intToBits data.length 8 ++
      data.flatMap (fun b => intToBits b 8) ++ List.replicate 4 false).length =
      16 + 8 * data.length := by
    rw [List.length_append, hhead, List.length_replicate]
    omega
  rw [hp]

theorem encodeBits_length (qr : QRCode) (hcap : qr.Data.length + 3 ≤ qr.getDataCapacity) :
    qr.encodeBits.length = qr.getDataCapacity * 8 := by
  rw [encodeBits_eq qr hcap]
  simp only [List.length_append, intToBits_length, flatMap_intToBits_length,
    List.length_replicate, padCycle_length, List.length_cons, List.length_nil]
  omega

/-- C5: for a payload the Sizer accepts (capacity at least length + 3),
encodeData returns exactly capacity bytes, and its capacity * 8 bits are
the claimed stream: mode indicator 0100, the 8-bit length field, the
payload bits most significant first, up to 4 terminator zeros clipped to
the remaining room, zero padding to the byte boundary, then the 0xEC, 0x11
cycle up to exactly capacity * 8 bits. -/
theorem encodeData_structure (qr : QRCode)
    (hcap : qr.Data.length + 3 ≤ qr.getDataCapacity) :
    qr.encodeData.length = qr.getDataCapacity ∧
    qr.encodeBits.length = qr.getDataCapacity * 8 ∧
    qr.encodeBits = encodeDataSpecBits qr.getDataCapacity qr.Data := by
  have h1 := encodeBits_length qr hcap
  refine ⟨?_, h1, ?_⟩
  · unfold QRCode.encodeData
    rw [bytesFromBits_length, h1]
    omega
  · rw [encodeBits_eq qr hcap, encodeDataSpecBits_eq _ _ hcap]

/-- Witness for C5 at qrW2 (capacity 17, payload 2 bytes). -/
theorem encodeData_structure_witness :
    qrW2.encodeData.length = qrW2.getDataCapacity ∧
    qrW2.encodeBits.length = qrW2.getDataCapacity * 8 ∧
    qrW2.encodeBits = encodeDataSpecBits qrW2.getDataCapacity qrW2.Data :=
  encodeData_structure qrW2 (by decide)

theorem intToBits_mod256 (L : Nat) : intToBits L 8 = intToBits (L % 256) 8 := by
  unfold intToBits
  refine List.map_congr_left ?_
  intro j hj
  rw [List.mem_range] at hj
  have hbit : (L >>> (8 - 1 - j)) &&& 1 = ((L % 256) >>> (8 - 1 - j)) &&& 1 := by
    rw [Nat.shiftRight_eq_div_pow, Nat.shiftRight_eq_div_pow, Nat.and_one_is_mod,
      Nat.and_one_is_mod]
    interval_cases j <;> simp only [Nat.reduceSub, Nat.reducePow] <;> omega
  rw [hbit]

/-- C10: for payloads of 256 to 268 bytes, NewQRCode succeeds (version 10,
level Low still fits), while the 8-bit character-count field that
encodeData emits holds only the low 8 bits of the length: the field bits
equal those of length mod 256, which differs from the true length. -/
theorem charCount_field_truncates (url : List Nat)
    (h1 : 256 ≤ url.length) (h2 : url.length ≤ 268) :
    ∃ qr : QRCode, NewQRCode url = Except.ok qr ∧
      intToBits url.length 8 = intToBits (url.length % 256) 8 ∧
      (qr.encodeBits.drop 4).take 8 = intToBits (url.length % 256) 8 ∧
      url.length % 256 ≠ url.length := by
  have hd : determineVersionAndErrorLevel url.length = (10, ErrorLevel.Low) := by
    have hsmall : ∀ k < 13, determineVersionAndErrorLevel (256 + k) = (10, ErrorLevel.Low) := by
      decide
    obtain ⟨k, hk, hEq⟩ : ∃ k, k < 13 ∧ url.length = 256 + k :=
      ⟨url.length - 256, by omega, by omega⟩
    rw [hEq]
    exact hsmall _ hk
  have hvalid : isValidURL url = true := by
    unfold isValidURL
    rw [if_neg (by omega)]
  have hnew : NewQRCode url = Except.ok (qr10 url) := by
    unfold NewQRCode
    rw [hvalid]
    simp only [Bool.not_true, Bool.false_eq_true, if_false]
    rw [hd]
    rw [if_neg (by decide)]
    rfl
  have hcap : (qr10 url).Data.length + 3 ≤ (qr10 url).getDataCapacity := by
    rw [show (qr10 url).getDataCapacity = 271 from rfl]
    show url.length + 3 ≤ 271
    omega
  refine ⟨qr10 url, hnew, intToBits_mod256 url.length, ?_, by omega⟩
  rw [encodeBits_eq _ hcap]
  simp only [List.append_assoc]
  rw [show ([false, true, false, false] ++ (intToBits (qr10 url).Data.length 8 ++
    (((qr10 url).Data.flatMap fun b => intToBits b 8) ++ (List.replicate 4 false ++
      padCycle 0 (((qr10 url).getDataCapacity * 8 - (16 + 8 * (qr10 url).Data.length)) / 8))))).drop 4
    = intToBits (qr10 url).Data.length 8 ++
      (((qr10 url).Data.flatMap fun b => intToBits b 8) ++ (List.replicate 4 false ++
      padCycle 0 (((qr10 url).getDataCapacity * 8 - (16 + 8 * (qr10 url).Data.length)) / 8)))
    from rfl]
  rw [List.take_left' (intToBits_length _ _)]
  show intToBits url.length 8 = _
  exact intToBits_mod256 url.length

/-- Witness for C10 at a concrete 260-byte payload. -/
theorem charCount_field_truncates_witness :
    ∃ qr : QRCode, NewQRCode (List.replicate 260 7) = Except.ok qr ∧
      intToBits (List.replicate 260 7).length 8 =
        intToBits ((List.replicate 260 7).length % 256) 8 ∧
      ((qr.encodeBits.drop 4).take 8 =
        intToBits ((List.replicate 260 7).length % 256) 8) ∧
      (List.replicate 260 7).length % 256 ≠ (List.replicate 260 7).length :=
  charCount_field_truncates (List.replicate 260 7) (by simp) (by simp)

theorem setModule_Size (qr : QRCode) (x y : Int) (v : Bool) :
    (qr.setModule x y v).Size = qr.Size := by
  unfold QRCode.setModule
  split <;> rfl

theorem setFunction_Size (qr : QRCode) (x y : Int) (v : Bool) :
    (qr.setFunction x y v).Size = qr.Size := by
  unfold QRCode.setFunction
  split <;> rfl

theorem setFunction_Modules (qr : QRCode) (x y : Int) (v : Bool) (y1 x1 : Int) :
    (qr.setFunction x y v).Modules y1 x1 = qr.Modules y1 x1 := by
  unfold QRCode.setFunction
  split <;> rfl

theorem setModule_IsFunction (qr : QRCode) (x y : Int) (v : Bool) (y1 x1 : Int) :
    (qr.setModule x y v).IsFunction y1 x1 = qr.IsFunction y1 x1 := by
  unfold QRCode.setModule
  split <;> rfl

theorem setModule_Modules_ne (qr : QRCode) (x y : Int) (v : Bool) (y1 x1 : Int)
    (h : ¬(y1 = y ∧ x1 = x)) :
    (qr.setModule x y v).Modules y1 x1 = qr.Modules y1 x1 := by
  unfold QRCode.setModule
  split
  · show updateGrid qr.Modules y x v y1 x1 = qr.Modules y1 x1
    rw [updateGrid_apply, if_neg h]
  · rfl

theorem setModule_Modules_eq (qr : QRCode) (x y : Int) (v : Bool)
    (hx0 : 0 ≤ x) (hx : x < qr.Size) (hy0 : 0 ≤ y) (hy : y < qr.Size) :
    (qr.setModule x y v).Modules y x = v := by
  unfold QRCode.setModule
  rw [if_pos (by unfold QRCode.inBounds; exact decide_eq_true ⟨hx0, hx, hy0, hy⟩)]
  exact updateGrid_self _ _ _ _

theorem setFunction_IsFunction_ne (qr : QRCode) (x y : Int) (v : Bool) (y1 x1 : Int)
    (h : ¬(y1 = y ∧ x1 = x)) :
    (qr.setFunction x y v).IsFunction y1 x1 = qr.IsFunction y1 x1 := by
  unfold QRCode.setFunction
  split
  · show updateGrid qr.IsFunction y x v y1 x1 = qr.IsFunction y1 x1
    rw [updateGrid_apply, if_neg h]
  · rfl

theorem setFunction_IsFunction_eq (qr : QRCode) (x y : Int) (v : Bool)
    (hx0 : 0 ≤ x) (hx : x < qr.Size) (hy0 : 0 ≤ y) (hy : y < qr.Size) :
    (qr.setFunction x y v).IsFunction y x = v := by
  unfold QRCode.setFunction
  rw [if_pos (by unfold QRCode.inBounds; exact decide_eq_true ⟨hx0, hx, hy0, hy⟩)]
  exact updateGrid_self _ _ _ _

theorem formatInfoStep_0 (qr q : QRCode) :
    formatInfoStep qr q 0 =
      ((((q.setModule 8 0 (formatBit qr 0)).setModule 0 8 (formatBit qr 0)).setFunction 8 0 true).setFunction 0 8 true) := rfl

theorem formatInfoStep_1 (qr q : QRCode) :
    formatInfoStep qr q 1 =
      ((((q.setModule 8 1 (formatBit qr 1)).setModule 1 8 (formatBit qr 1)).setFunction 8 1 true).setFunction 1 8 true) := rfl

theorem formatInfoStep_2 (qr q : QRCode) :
    formatInfoStep qr q 2 =
      ((((q.setModule 8 2 (formatBit qr 2)).setModule 2 8 (formatBit qr 2)).setFunction 8 2 true).setFunction 2 8 true) := rfl

theorem formatInfoStep_3 (qr q : QRCode) :
    formatInfoStep qr q 3 =
      ((((q.setModule 8 3 (formatBit qr 3)).setModule 3 8 (formatBit qr 3)).setFunction 8 3 true).setFunction 3 8 true) := rfl

theorem formatInfoStep_4 (qr q : QRCode) :
    formatInfoStep qr q 4 =
      ((((q.setModule 8 4 (formatBit qr 4)).setModule 4 8 (formatBit qr 4)).setFunction 8 4 true).setFunction 4 8 true) := rfl

theorem formatInfoStep_5 (qr q : QRCode) :
    formatInfoStep qr q 5 =
      ((((q.setModule 8 5 (formatBit qr 5)).setModule 5 8 (formatBit qr 5)).setFunction 8 5 true).setFunction 5 8 true) := rfl

theorem formatInfoStep_6 (qr q : QRCode) :
    formatInfoStep qr q 6 =
      ((((q.setModule 8 7 (formatBit qr 6)).setModule 7 8 (formatBit qr 6)).setFunction 8 7 true).setFunction 7 8 true) := rfl

theorem formatInfoStep_7 (qr q : QRCode) :
    formatInfoStep qr q 7 =
      ((q.setModule 8 8 (formatBit qr 7)).setFunction 8 8 true) := rfl

theorem formatInfoStep_8 (qr q : QRCode) :
    formatInfoStep qr q 8 =
      ((q.setModule 7 8 (formatBit qr 8)).setFunction 7 8 true) := rfl

theorem formatInfoStep_9 (qr q : QRCode) :
    formatInfoStep qr q 9 =
      ((((q.setModule 5 8 (formatBit qr 9)).setModule 8 (qr.Size - 15 + 9) (formatBit qr 9)).setFunction 5 8 true).setFunction 8 (qr.Size - 15 + 9) true) := rfl

theorem formatInfoStep_10 (qr q : QRCode) :
    formatInfoStep qr q 10 =
      ((((q.setModule 4 8 (formatBit qr 10)).setModule 8 (qr.Size - 15 + 10) (formatBit qr 10)).setFunction 4 8 true).setFunction 8 (qr.Size - 15 + 10) true) := rfl

theorem formatInfoStep_11 (qr q : QRCode) :
    formatInfoStep qr q 11 =
      ((((q.setModule 3 8 (formatBit qr 11)).setModule 8 (qr.Size - 15 + 11) (formatBit qr 11)).setFunction 3 8 true).setFunction 8 (qr.Size - 15 + 11) true) := rfl

theorem formatInfoStep_12 (qr q : QRCode) :
    formatInfoStep qr q 12 =
      ((((q.setModule 2 8 (formatBit qr 12)).setModule 8 (qr.Size - 15 + 12) (formatBit qr 12)).setFunction 2 8 true).setFunction 8 (qr.Size - 15 + 12) true) := rfl

theorem formatInfoStep_13 (qr q : QRCode) :
    formatInfoStep qr q 13 =
      ((((q.setModule 1 8 (formatBit qr 13)).setModule 8 (qr.Size - 15 + 13) (formatBit qr 13)).setFunction 1 8 true).setFunction 8 (qr.Size - 15 + 13) true) := rfl

theorem formatInfoStep_14 (qr q : QRCode) :
    formatInfoStep qr q 14 =
      ((((q.setModule 0 8 (formatBit qr 14)).setModule 8 (qr.Size - 15 + 14) (formatBit qr 14)).setFunction 0 8 true).setFunction 8 (qr.Size - 15 + 14) true) := rfl

theorem fold15 (qr q : QRCode) :
    (List.range 15).foldl (formatInfoStep qr) q =
      (formatInfoStep qr (formatInfoStep qr (formatInfoStep qr (formatInfoStep qr (formatInfoStep qr (formatInfoStep qr (formatInfoStep qr (formatInfoStep qr (formatInfoStep qr (formatInfoStep qr (formatInfoStep qr (formatInfoStep qr (formatInfoStep qr (formatInfoStep qr (formatInfoStep qr q 0) 1) 2) 3) 4) 5) 6) 7) 8) 9) 10) 11) 12) 13) 14) := rfl

theorem addFormatInfo_expanded (qr : QRCode) :
    qr.addFormatInfo =
      ((((((((((((((((((((((((((((((((((((((((((((((((((((((((((qr.setModule 8 0 (formatBit qr 0)).setModule 0 8 (formatBit qr 0)).setFunction 8 0 true).setFunction 0 8 true).setModule 8 1 (formatBit qr 1)).setModule 1 8 (formatBit qr 1)).setFunction 8 1 true).setFunction 1 8 true).setModule 8 2 (formatBit qr 2)).setModule 2 8 (formatBit qr 2)).setFunction 8 2 true).setFunction 2 8 true).setModule 8 3 (formatBit qr 3)).setModule 3 8 (formatBit qr 3)).setFunction 8 3 true).setFunction 3 8 true).setModule 8 4 (formatBit qr 4)).setModule 4 8 (formatBit qr 4)).setFunction 8 4 true).setFunction 4 8 true).setModule 8 5 (formatBit qr 5)).setModule 5 8 (formatBit qr 5)).setFunction 8 5 true).setFunction 5 8 true).setModule 8 7 (formatBit qr 6)).setModule 7 8 (formatBit qr 6)).setFunction 8 7 true).setFunction 7 8 true).setModule 8 8 (formatBit qr 7)).setFunction 8 8 true).setModule 7 8 (formatBit qr 8)).setFunction 7 8 true).setModule 5 8 (formatBit qr 9)).setModule 8 (qr.Size - 15 + 9) (formatBit qr 9)).setFunction 5 8 true).setFunction 8 (qr.Size - 15 + 9) true).setModule 4 8 (formatBit qr 10)).setModule 8 (qr.Size - 15 + 10) (formatBit qr 10)).setFunction 4 8 true).setFunction 8 (qr.Size - 15 + 10) true).setModule 3 8 (formatBit qr 11)).setModule 8 (qr.Size - 15 + 11) (formatBit qr 11)).setFunction 3 8 true).setFunction 8 (qr.Size - 15 + 11) true).setModule 2 8 (formatBit qr 12)).setModule 8 (qr.Size - 15 + 12) (formatBit qr 12)).setFunction 2 8 true).setFunction 8 (qr.Size - 15 + 12) true).setModule 1 8 (formatBit qr 13)).setModule 8 (qr.Size - 15 + 13) (formatBit qr 13)).setFunction 1 8 true).setFunction 8 (qr.Size - 15 + 13) true).setModule 0 8 (formatBit qr 14)).setModule 8 (qr.Size - 15 + 14) (formatBit qr 14)).setFunction 0 8 true).setFunction 8 (qr.Size - 15 + 14) true).setModule 8 (qr.Size - 8) true).setFunction 8 (qr.Size - 8) true) := by
  show (((List.range 15).foldl (formatInfoStep qr) qr).setModule 8 (qr.Size - 8)
    true).setFunction 8 (qr.Size - 8) true = _
  rw [fold15]
  rw [formatInfoStep_14, formatInfoStep_13, formatInfoStep_12, formatInfoStep_11, formatInfoStep_10, formatInfoStep_9, formatInfoStep_8, formatInfoStep_7, formatInfoStep_6, formatInfoStep_5, formatInfoStep_4, formatInfoStep_3, formatInfoStep_2, formatInfoStep_1, formatInfoStep_0]

/-- C4 (amended): after addFormatInfo, column 8 rows 0 to 5 hold format
bits 0 to 5; row 8 columns 0 to 5 are first written with bits 0 to 5 but
end up holding bits 14 down to 9, because the mirror writes of the loop
overwrite them (column c holds bit 14 - c); around the timing band, cell
(8, 7) holds bit 6, cell (8, 8) holds bit 7, and cell (7, 8), first
written with bit 6, ends up holding bit 8; bits 9 to 14 are mirrored into
column 8 rows size - 15 + i; every written cell is marked as function
cell; and the dark module at (8, size - 8) is set dark and function-marked
by the final writes. -/
theorem addFormatInfo_layout (qr : QRCode) (hsize : 21 ≤ qr.Size) :
    (∀ i : Nat, i < 6 →
      qr.addFormatInfo.Modules (i : Int) 8 = formatBit qr i ∧
      qr.addFormatInfo.IsFunction (i : Int) 8 = true) ∧
    (∀ c : Nat, c < 6 →
      qr.addFormatInfo.Modules 8 (c : Int) = formatBit qr (14 - c) ∧
      qr.addFormatInfo.IsFunction 8 (c : Int) = true) ∧
    (qr.addFormatInfo.Modules 7 8 = formatBit qr 6 ∧
      qr.addFormatInfo.IsFunction 7 8 = true) ∧
    (qr.addFormatInfo.Modules 8 8 = formatBit qr 7 ∧
      qr.addFormatInfo.IsFunction 8 8 = true) ∧
    (qr.addFormatInfo.Modules 8 7 = formatBit qr 8 ∧
      qr.addFormatInfo.IsFunction 8 7 = true) ∧
    (∀ i : Nat, 9 ≤ i → i < 15 →
      qr.addFormatInfo.Modules (qr.Size - 15 + (i : Int)) 8 = formatBit qr i ∧
      qr.addFormatInfo.IsFunction (qr.Size - 15 + (i : Int)) 8 = true) ∧
    (qr.addFormatInfo.Modules (qr.Size - 8) 8 = true ∧
      qr.addFormatInfo.IsFunction (qr.Size - 8) 8 = true) := by
  refine ⟨fun i hi => ?_, fun c hc => ?_, ?_, ?_, ?_, fun i h9 h15 => ?_, ?_⟩
  · interval_cases i <;> constructor <;>
      ((try simp only [Nat.cast_ofNat, Nat.cast_zero, Nat.cast_one])
       rw [addFormatInfo_expanded]
       repeat first
         | rw [setFunction_Modules]
         | rw [setModule_IsFunction]
         | rw [setModule_Modules_ne _ _ _ _ _ _ (by omega)]
         | rw [setFunction_IsFunction_ne _ _ _ _ _ _ (by omega)]
       first
         | rw [setModule_Modules_eq _ _ _ _ (by omega) (by (repeat first | rw [setModule_Size] | rw [setFunction_Size]); omega) (by omega) (by (repeat first | rw [setModule_Size] | rw [setFunction_Size]); omega)]
         | rw [setFunction_IsFunction_eq _ _ _ _ (by omega) (by (repeat first | rw [setModule_Size] | rw [setFunction_Size]); omega) (by omega) (by (repeat first | rw [setModule_Size] | rw [setFunction_Size]); omega)]
       try rfl)
  · interval_cases c <;> constructor <;>
      ((try simp only [Nat.cast_ofNat, Nat.cast_zero, Nat.cast_one])
       rw [addFormatInfo_expanded]
       repeat first
         | rw [setFunction_Modules]
         | rw [setModule_IsFunction]
         | rw [setModule_Modules_ne _ _ _ _ _ _ (by omega)]
         | rw [setFunction_IsFunction_ne _ _ _ _ _ _ (by omega)]
       first
         | rw [setModule_Modules_eq _ _ _ _ (by omega) (by (repeat first | rw [setModule_Size] | rw [setFunction_Size]); omega) (by omega) (by (repeat first | rw [setModule_Size] | rw [setFunction_Size]); omega)]
         | rw [setFunction_IsFunction_eq _ _ _ _ (by omega) (by (repeat first | rw [setModule_Size] | rw [setFunction_Size]); omega) (by omega) (by (repeat first | rw [setModule_Size] | rw [setFunction_Size]); omega)]
       try rfl)
  · constructor <;>
      ((try simp only [Nat.cast_ofNat, Nat.cast_zero, Nat.cast_one])
       rw [addFormatInfo_expanded]
       repeat first
         | rw [setFunction_Modules]
         | rw [setModule_IsFunction]
         | rw [setModule_Modules_ne _ _ _ _ _ _ (by omega)]
         | rw [setFunction_IsFunction_ne _ _ _ _ _ _ (by omega)]
       first
         | rw [setModule_Modules_eq _ _ _ _ (by omega) (by (repeat first | rw [setModule_Size] | rw [setFunction_Size]); omega) (by omega) (by (repeat first | rw [setModule_Size] | rw [setFunction_Size]); omega)]
         | rw [setFunction_IsFunction_eq _ _ _ _ (by omega) (by (repeat first | rw [setModule_Size] | rw [setFunction_Size]); omega) (by omega) (by (repeat first | rw [setModule_Size] | rw [setFunction_Size]); omega)]
       try rfl)
  · constructor <;>
      ((try simp only [Nat.cast_ofNat, Nat.cast_zero, Nat.cast_one])
       rw [addFormatInfo_expanded]
       repeat first
         | rw [setFunction_Modules]
         | rw [setModule_IsFunction]
         | rw [setModule_Modules_ne _ _ _ _ _ _ (by omega)]
         | rw [setFunction_IsFunction_ne _ _ _ _ _ _ (by omega)]
       first
         | rw [setModule_Modules_eq _ _ _ _ (by omega) (by (repeat first | rw [setModule_Size] | rw [setFunction_Size]); omega) (by omega) (by (repeat first | rw [setModule_Size] | rw [setFunction_Size]); omega)]
         | rw [setFunction_IsFunction_eq _ _ _ _ (by omega) (by (repeat first | rw [setModule_Size] | rw [setFunction_Size]); omega) (by omega) (by (repeat first | rw [setModule_Size] | rw [setFunction_Size]); omega)]
       try rfl)
  · constructor <;>
      ((try simp only [Nat.cast_ofNat, Nat.cast_zero, Nat.cast_one])
       rw [addFormatInfo_expanded]
       repeat first
         | rw [setFunction_Modules]
         | rw [setModule_IsFunction]
         | rw [setModule_Modules_ne _ _ _ _ _ _ (by omega)]
         | rw [setFunction_IsFunction_ne _ _ _ _ _ _ (by omega)]
       first
         | rw [setModule_Modules_eq _ _ _ _ (by omega) (by (repeat first | rw [setModule_Size] | rw [setFunction_Size]); omega) (by omega) (by (repeat first | rw [setModule_Size] | rw [setFunction_Size]); omega)]
         | rw [setFunction_IsFunction_eq _ _ _ _ (by omega) (by (repeat first | rw [setModule_Size] | rw [setFunction_Size]); omega) (by omega) (by (repeat first | rw [setModule_Size] | rw [setFunction_Size]); omega)]
       try rfl)
  · interval_cases i <;> constructor <;>
      ((try simp only [Nat.cast_ofNat, Nat.cast_zero, Nat.cast_one])
       rw [addFormatInfo_expanded]
       repeat first
         | rw [setFunction_Modules]
         | rw [setModule_IsFunction]
         | rw [setModule_Modules_ne _ _ _ _ _ _ (by omega)]
         | rw [setFunction_IsFunction_ne _ _ _ _ _ _ (by omega)]
       first
         | rw [setModule_Modules_eq _ _ _ _ (by omega) (by (repeat first | rw [setModule_Size] | rw [setFunction_Size]); omega) (by omega) (by (repeat first | rw [setModule_Size] | rw [setFunction_Size]); omega)]
         | rw [setFunction_IsFunction_eq _ _ _ _ (by omega) (by (repeat first | rw [setModule_Size] | rw [setFunction_Size]); omega) (by omega) (by (repeat first | rw [setModule_Size] | rw [setFunction_Size]); omega)]
       try rfl)
  · constructor <;>
      ((try simp only [Nat.cast_ofNat, Nat.cast_zero, Nat.cast_one])
       rw [addFormatInfo_expanded]
       repeat first
         | rw [setFunction_Modules]
         | rw [setModule_IsFunction]
         | rw [setModule_Modules_ne _ _ _ _ _ _ (by omega)]
         | rw [setFunction_IsFunction_ne _ _ _ _ _ _ (by omega)]
       first
         | rw [setModule_Modules_eq _ _ _ _ (by omega) (by (repeat first | rw [setModule_Size] | rw [setFunction_Size]); omega) (by omega) (by (repeat first | rw [setModule_Size] | rw [setFunction_Size]); omega)]
         | rw [setFunction_IsFunction_eq _ _ _ _ (by omega) (by (repeat first | rw [setModule_Size] | rw [setFunction_Size]); omega) (by omega) (by (repeat first | rw [setModule_Size] | rw [setFunction_Size]); omega)]
       try rfl)

/-- C4 counterexample: on a concrete symbol (level Low, mask 0, format
constant 0x5412) the final value of row 8, column 0 is dark, the value of
bit 14, while bit 0 of the constant is 0: the claimed placement of bits 0
to 5 along row 8 columns 0 to 5 does not describe the final grid, because
the mirror writes overwrite those six cells. -/
theorem addFormatInfo_row8_overwritten :
    qrW2.addFormatInfo.Modules 8 0 = true ∧ ((0x5412 : Nat) >>> 0) &&& 1 = 0 := by decide

/-- Witness for C4 (amended) at the concrete symbol qrW2 of size 21. -/
theorem addFormatInfo_layout_witness :
    (∀ i : Nat, i < 6 →
      qrW2.addFormatInfo.Modules (i : Int) 8 = formatBit qrW2 i ∧
      qrW2.addFormatInfo.IsFunction (i : Int) 8 = true) ∧
    (∀ c : Nat, c < 6 →
      qrW2.addFormatInfo.Modules 8 (c : Int) = formatBit qrW2 (14 - c) ∧
      qrW2.addFormatInfo.IsFunction 8 (c : Int) = true) ∧
    (qrW2.addFormatInfo.Modules 7 8 = formatBit qrW2 6 ∧
      qrW2.addFormatInfo.IsFunction 7 8 = true) ∧
    (qrW2.addFormatInfo.Modules 8 8 = formatBit qrW2 7 ∧
      qrW2.addFormatInfo.IsFunction 8 8 = true) ∧
    (qrW2.addFormatInfo.Modules 8 7 = formatBit qrW2 8 ∧
      qrW2.addFormatInfo.IsFunction 8 7 = true) ∧
    (∀ i : Nat, 9 ≤ i → i < 15 →
      qrW2.addFormatInfo.Modules (qrW2.Size - 15 + (i : Int)) 8 = formatBit qrW2 i ∧
      qrW2.addFormatInfo.IsFunction (qrW2.Size - 15 + (i : Int)) 8 = true) ∧
    (qrW2.addFormatInfo.Modules (qrW2.Size - 8) 8 = true ∧
      qrW2.addFormatInfo.IsFunction (qrW2.Size - 8) 8 = true) :=
  addFormatInfo_layout qrW2 (by decide)
